import Mathlib

/-!
Verification development for the solar-lease document extractor
(`src/document_extractor.py`, function `extract_lease_data_from_text`).

The extractor runs a fixed ordered battery of regular-expression searches over
the normalized (whitespace-collapsed, lowercased) document text and then applies
per-field resolution logic.  The embedding below abstracts the regex layer as a
`RegexMatches` environment holding, for each pattern battery, exactly the data
the Python code reads from the `re` module:

* `rentMatches`      : for each rent pattern in order, the first match's captured
                       group (or `none` when the pattern does not match);
* `termMatches`      : the flattened list, in battery order, of every capture
                       produced by `re.finditer` over the term patterns;
* `renewalMatch`     : the two captures of the renewal-clause pattern, if any;
* `escalatorMatches` : as `rentMatches`, for the escalator patterns;
* `acresMatches`     : as `rentMatches`, for the acreage patterns;
* `perAcreRates`     : the `re.findall` capture list of the per-acre pattern;
* `combinedLocation` : the two captures of the combined county/state pattern;
* `locationMatches`  : as `rentMatches`, for the single-capture location patterns;
* `developerMatches` : as `rentMatches`, for the company-name patterns.

Every document text induces one such environment, so a property proved for all
environments holds for all texts.  Python `float` values are modelled as exact
rationals; `int()`/`float()` on captured strings are modelled on the character
classes the regexes can capture (digits, commas, dots), returning `none`
exactly where Python raises `ValueError`.  All quantities are nonnegative, so
Python `int()` truncation on a product of nonnegative floats is `Rat.floor`.
-/

/-- Decimal value of a digit string, as computed by Python `int` on digits. -/
def digitsVal (s : List Char) : Nat :=
  s.foldl (fun a c => a * 10 + (c.toNat - 48)) 0

/-- Python `int()` on a captured string: the regex capture classes only ever
produce digit/comma strings (commas stripped by the caller), so `int` succeeds
exactly on nonempty all-digit strings and raises `ValueError` otherwise. -/
def pyInt (s : List Char) : Option Nat :=
  if s ≠ [] ∧ s.all Char.isDigit then some (digitsVal s) else none

/-- Python `float()` on a captured string (digits with an optional single dot,
after comma stripping): succeeds when both sides of the dot are digit strings
and at least one digit is present; raises `ValueError` otherwise.  The result
is modelled as an exact rational. -/
def pyFloat (s : List Char) : Option ℚ :=
  let ip := s.takeWhile (fun c => !(c == '.'))
  match s.dropWhile (fun c => !(c == '.')) with
  | [] =>
    if ip ≠ [] ∧ ip.all Char.isDigit then some ((digitsVal ip : ℚ)) else none
  | _ :: fp =>
    if (ip ≠ [] ∨ fp ≠ []) ∧ ip.all Char.isDigit ∧ fp.all Char.isDigit then
      some ((digitsVal ip : ℚ) + (digitsVal fp : ℚ) / (10 : ℚ) ^ fp.length)
    else none

/-- `s.replace(',', '')` on a captured string. -/
def stripCommas (s : List Char) : List Char :=
  s.filter (fun c => !(c == ','))

/-- Worker for Python `str.title()`: a letter is uppercased when the previous
character is not a letter, lowercased otherwise. -/
def pyTitleGo : Bool → List Char → List Char
  | _, [] => []
  | prevCased, c :: rest =>
    if c.isAlpha then
      (if prevCased then c.toLower else c.toUpper) :: pyTitleGo true rest
    else
      c :: pyTitleGo false rest

/-- Python `str.title()` (ASCII model). -/
def pyTitle (s : String) : String :=
  String.mk (pyTitleGo false s.data)

/-- Python `str.strip()`: drop whitespace from both ends. -/
def pyStrip (s : List Char) : List Char :=
  ((s.dropWhile Char.isWhitespace).reverse.dropWhile Char.isWhitespace).reverse

/-- Does `p` occur at the head of `s`? -/
def leadsWith : List Char → List Char → Bool
  | [], _ => true
  | _ :: _, [] => false
  | a :: ps, b :: bs => a == b && leadsWith ps bs

/-- Worker for Python `str.replace`: scan left to right, replacing each
non-overlapping occurrence of `pat`.  The fuel argument (instantiated with the
input length, an upper bound on the number of scanning steps, each of which
consumes at least one character) only makes the recursion structural. -/
def replaceAllGo (pat repl : List Char) : Nat → List Char → List Char
  | _, [] => []
  | 0, s => s
  | fuel + 1, c :: rest =>
    if pat ≠ [] ∧ leadsWith pat (c :: rest) then
      repl ++ replaceAllGo pat repl fuel (List.drop pat.length (c :: rest))
    else
      c :: replaceAllGo pat repl fuel rest

/-- Python `str.replace(pat, repl)`: replace every non-overlapping occurrence
of `pat`, scanning left to right (for nonempty `pat`). -/
def replaceAll (pat repl s : List Char) : List Char :=
  replaceAllGo pat repl s.length s

/-- Python `max` on a nonnegative integer list (`0` on `[]`, unreachable in the
guarded source). -/
def maxList : List Nat → Nat
  | [] => 0
  | a :: r => r.foldl max a

/-- Python `min` on a nonnegative integer list (`0` on `[]`, unreachable in the
guarded source). -/
def minList : List Nat → Nat
  | [] => 0
  | a :: r => r.foldl min a

/-- Python `max` on a rational list (`0` on `[]`, unreachable in the guarded
source). -/
def maxListQ : List ℚ → ℚ
  | [] => 0
  | a :: r => r.foldl max a

/-- Python `max`, raising on an empty sequence. -/
def maxListE : List Nat → Except String Nat
  | [] => Except.error "max() arg is an empty sequence"
  | a :: r => Except.ok (r.foldl max a)

/-- Python `min`, raising on an empty sequence. -/
def minListE : List Nat → Except String Nat
  | [] => Except.error "min() arg is an empty sequence"
  | a :: r => Except.ok (r.foldl min a)

/-- Python `max` on rationals, raising on an empty sequence. -/
def maxListQE : List ℚ → Except String ℚ
  | [] => Except.error "max() arg is an empty sequence"
  | a :: r => Except.ok (r.foldl max a)

/-- The `number_words` table of the source (spelled-out year counts). -/
def number_words : List (List Char × Nat) :=
  [("one".data, 1), ("two".data, 2), ("three".data, 3), ("four".data, 4),
   ("five".data, 5), ("six".data, 6), ("seven".data, 7), ("eight".data, 8),
   ("nine".data, 9), ("ten".data, 10), ("eleven".data, 11), ("twelve".data, 12),
   ("thirteen".data, 13), ("fourteen".data, 14), ("fifteen".data, 15),
   ("sixteen".data, 16), ("seventeen".data, 17), ("eighteen".data, 18),
   ("nineteen".data, 19), ("twenty".data, 20), ("thirty".data, 30),
   ("forty".data, 40), ("fifty".data, 50), ("sixty".data, 60)]

/-- The term-candidate collection loop: every capture across all term patterns
is converted (`int(val)` when all digits, else the `number_words` table on the
lowercased capture) and appended when truthy (Python skips `0` and `None`). -/
def termCandidates (ms : List String) : List Nat :=
  ms.filterMap (fun val =>
    let yv : Option Nat :=
      if val.data ≠ [] ∧ val.data.all Char.isDigit then some (digitsVal val.data)
      else number_words.lookup (val.data.map Char.toLower)
    match yv with
    | some v => if v ≠ 0 then some v else none
    | none => none)

/-- Term candidates after the renewal-clause step: when the renewal pattern
matched and both captures parse, append `initial_term + count * years`, where
`initial_term` is the maximum candidate so far, or the renewal years when no
candidate exists. -/
def termCandidatesFull (ms : List String) (renewal : Option (String × String)) :
    List Nat :=
  match renewal with
  | none => termCandidates ms
  | some (g1, g2) =>
    match pyInt g1.data, pyInt g2.data with
    | some n, some k =>
      termCandidates ms ++
        [(if termCandidates ms = [] then k else maxList (termCandidates ms)) + n * k]
    | some _, none => termCandidates ms
    | none, _ => termCandidates ms

/-- Exception-explicit renewal step (Python `max` can raise; the source guards
it behind a nonemptiness test). -/
def termCandidatesFullE (ms : List String) (renewal : Option (String × String)) :
    Except String (List Nat) :=
  match renewal with
  | none => pure (termCandidates ms)
  | some (g1, g2) =>
    match pyInt g1.data, pyInt g2.data with
    | some n, some k =>
      if termCandidates ms = [] then pure (termCandidates ms ++ [k + n * k])
      else do
        let i ← maxListE (termCandidates ms)
        pure (termCandidates ms ++ [i + n * k])
    | some _, none => pure (termCandidates ms)
    | none, _ => pure (termCandidates ms)

/-- Term resolution: keep candidates in `[15, 35]` and take their maximum; when
none are in range, take the minimum of all raw candidates if it is at most 50,
else resolve to nothing. -/
def resolveTerm (tc : List Nat) : Option Nat :=
  if tc = [] then none
  else if tc.filter (fun t => decide (15 ≤ t ∧ t ≤ 35)) ≠ [] then
    some (maxList (tc.filter (fun t => decide (15 ≤ t ∧ t ≤ 35))))
  else if minList tc ≤ 50 then some (minList tc) else none

/-- Exception-explicit term resolution. -/
def resolveTermE (tc : List Nat) : Except String (Option Nat) :=
  if tc = [] then pure none
  else if tc.filter (fun t => decide (15 ≤ t ∧ t ≤ 35)) ≠ [] then do
    let mx ← maxListE (tc.filter (fun t => decide (15 ≤ t ∧ t ≤ 35)))
    pure (some mx)
  else do
    let mn ← minListE tc
    if mn ≤ 50 then pure (some mn) else pure none

/-- The review flag: `if lease_data.get("term_years") and term_years < 10`.
Python truthiness makes both `None` and `0` fall to the `else` branch. -/
def needsReview : Option Nat → Bool
  | some v => decide (v ≠ 0) && decide (v < 10)
  | none => false

/-- The rent loop: first pattern (in battery order) whose capture parses after
comma stripping to an integer in `[1000, 10000000]` wins; parse failures and
out-of-range values fall through to the next pattern. -/
def resolveRent : List (Option String) → Option Nat
  | [] => none
  | none :: rest => resolveRent rest
  | some cap :: rest =>
    match pyInt (stripCommas cap.data) with
    | some amt =>
      if 1000 ≤ amt ∧ amt ≤ 10000000 then some amt else resolveRent rest
    | none => resolveRent rest

/-- The escalator loop: first pattern whose capture parses as a float in
`[0.5, 5.0]` sets `escalator` to that percentage divided by 100; otherwise
the default `0.0` is kept. -/
def resolveEscalator : List (Option String) → ℚ
  | [] => 0
  | none :: rest => resolveEscalator rest
  | some cap :: rest =>
    match pyFloat cap.data with
    | some p =>
      if 1 / 2 ≤ p ∧ p ≤ 5 then p / 100 else resolveEscalator rest
    | none => resolveEscalator rest

/-- The percentage the escalator loop accepts: the first in-range parsed
capture, if any (projection of the same loop, used to state its invariant). -/
def acceptedEscPct : List (Option String) → Option ℚ
  | [] => none
  | none :: rest => acceptedEscPct rest
  | some cap :: rest =>
    match pyFloat cap.data with
    | some p =>
      if 1 / 2 ≤ p ∧ p ≤ 5 then some p else acceptedEscPct rest
    | none => acceptedEscPct rest

/-- The acreage loop: first pattern whose capture parses (after comma
stripping) as a float wins; no range check is applied. -/
def resolveAcres : List (Option String) → Option ℚ
  | [] => none
  | none :: rest => resolveAcres rest
  | some cap :: rest =>
    match pyFloat (stripCommas cap.data) with
    | some q => some q
    | none => resolveAcres rest

/-- The `rates_float` list comprehension: parse every per-acre capture; a
single `ValueError` aborts the whole comprehension (no partial result). -/
def parseAllRates : List String → Option (List ℚ)
  | [] => some []
  | r :: rest =>
    match pyFloat (stripCommas r.data), parseAllRates rest with
    | some q, some qs => some (q :: qs)
    | some _, none => none
    | none, _ => none

/-- The per-acre override step: when at least one per-acre rate was found and
the resolved acreage is truthy (present and nonzero), compute
`computed = int(max(rates) * acres)` and replace the rent when it is missing,
more than three times `computed`, or less than a third of `computed`
(`computed / 3` is Python true division, exact here). -/
def applyPerAcreOverride (rates : List String) (acres : Option ℚ)
    (rent : Option Nat) : Option Nat :=
  match acres with
  | none => rent
  | some a =>
    if rates = [] ∨ a = 0 then rent
    else
      match parseAllRates rates with
      | none => rent
      | some rf =>
        match rent with
        | none => some ((Rat.floor (maxListQ rf * a)).toNat)
        | some v =>
          if (Rat.floor (maxListQ rf * a)).toNat * 3 < v ∨
              (v : ℚ) < ((Rat.floor (maxListQ rf * a)).toNat : ℚ) / 3 then
            some ((Rat.floor (maxListQ rf * a)).toNat)
          else some v

/-- Exception-explicit per-acre override (Python `max` can raise; the source
guards it behind the nonemptiness of the findall list). -/
def applyPerAcreOverrideE (rates : List String) (acres : Option ℚ)
    (rent : Option Nat) : Except String (Option Nat) :=
  match acres with
  | none => pure rent
  | some a =>
    if rates = [] ∨ a = 0 then pure rent
    else
      match parseAllRates rates with
      | none => pure rent
      | some rf => do
        let mx ← maxListQE rf
        match rent with
        | none => pure (some ((Rat.floor (mx * a)).toNat))
        | some v =>
          if (Rat.floor (mx * a)).toNat * 3 < v ∨
              (v : ℚ) < ((Rat.floor (mx * a)).toNat : ℚ) / 3 then
            pure (some ((Rat.floor (mx * a)).toNat))
          else pure (some v)

/-- The value the per-acre override would install, when its guard fires
(projection of the override step, used to state the rent invariant). -/
def perAcreComputed (m_rates : List String) (m_acres : Option ℚ) : Option Nat :=
  match m_acres with
  | none => none
  | some a =>
    if m_rates = [] ∨ a = 0 then none
    else
      match parseAllRates m_rates with
      | none => none
      | some rf => some ((Rat.floor (maxListQ rf * a)).toNat)

/-- The single-capture location loop: first capture whose title-cased form is
longer than 2 characters wins. -/
def locationLoop : List (Option String) → Option String
  | [] => none
  | none :: rest => locationLoop rest
  | some cap :: rest =>
    let location := pyTitle cap
    if 2 < location.length then some location else locationLoop rest

/-- Location resolution: the combined "county, state" pattern is tried first
(both title-cased captures must be longer than 2 characters); otherwise the
single-capture loop runs. -/
def resolveLocation (combined : Option (String × String))
    (ms : List (Option String)) : Option String :=
  let fromCombined : Option String :=
    match combined with
    | none => none
    | some (cg, sg) =>
      let county := pyTitle cg
      let state := pyTitle sg
      if 2 < county.length ∧ 2 < state.length then
        some (county ++ " County, " ++ state)
      else none
  match fromCombined with
  | some loc => some loc
  | none => locationLoop ms

/-- The company-name loop: first capture whose stripped, title-cased form is
longer than 5 characters wins. -/
def developerLoop : List (Option String) → Option String
  | [] => none
  | none :: rest => developerLoop rest
  | some cap :: rest =>
    let company := pyTitle (String.mk (pyStrip cap.data))
    if 5 < company.length then some company else developerLoop rest

/-- The record name: `filename.replace('.pdf', '').replace('.docx', '')
.replace('_', ' ').title()` (every occurrence is replaced, not only a
suffix). -/
def buildName (filename : String) : String :=
  pyTitle (String.mk (replaceAll "_".data " ".data
    (replaceAll ".docx".data [] (replaceAll ".pdf".data [] filename.data))))

/-- Does `s` end with `pat`? -/
def endsWithL (pat s : List Char) : Bool :=
  leadsWith pat.reverse s.reverse

/-- The reading of the name derivation under test for the name claim,
following the spec's words rather than the source: only a trailing ".pdf" or
".docx" extension suffix is stripped. -/
def stripSuffixExt (s : List Char) : List Char :=
  if endsWithL ".pdf".data s then s.take (s.length - 4)
  else if endsWithL ".docx".data s then s.take (s.length - 5)
  else s

/-- The name the claim describes, following the spec's words: the document
name with its extension suffix stripped, underscores replaced by spaces, and
title-cased (to be compared with `buildName`, which is translated from the
source and removes every ".pdf"/".docx" occurrence). -/
def nameSpecTransform (filename : String) : String :=
  pyTitle (String.mk (replaceAll "_".data " ".data (stripSuffixExt filename.data)))

/-- The output record of `extract_lease_data_from_text`. -/
structure LeaseRecord where
  name : String
  annual_rent : Option Nat
  term_years : Option Nat
  escalator : ℚ
  risk_tier : String
  location : Option String
  acres : Option ℚ
  developer : Option String
  landowners : Option String
  needs_review : Bool
deriving DecidableEq

/-- The regex-layer results the extractor reads, one field per pattern battery
(see the module comment). -/
structure RegexMatches where
  rentMatches : List (Option String)
  termMatches : List String
  renewalMatch : Option (String × String)
  escalatorMatches : List (Option String)
  acresMatches : List (Option String)
  perAcreRates : List String
  combinedLocation : Option (String × String)
  locationMatches : List (Option String)
  developerMatches : List (Option String)
deriving DecidableEq

/-- `extract_lease_data_from_text`, over the abstracted regex layer: resolve
rent, collect and resolve term candidates, set the review flag, resolve the
escalator and acreage, apply the per-acre override, resolve location and
developer, and assemble the record (defaults: escalator `0.0`, risk tier
`"medium"`, `landowners` never populated). -/
def extract_lease_data_from_text (filename : String) (m : RegexMatches) :
    LeaseRecord :=
  { name := buildName filename
    annual_rent := applyPerAcreOverride m.perAcreRates
      (resolveAcres m.acresMatches) (resolveRent m.rentMatches)
    term_years := resolveTerm (termCandidatesFull m.termMatches m.renewalMatch)
    escalator := resolveEscalator m.escalatorMatches
    risk_tier := "medium"
    location := resolveLocation m.combinedLocation m.locationMatches
    acres := resolveAcres m.acresMatches
    developer := developerLoop m.developerMatches
    landowners := none
    needs_review :=
      needsReview (resolveTerm (termCandidatesFull m.termMatches m.renewalMatch)) }

/-- Exception-explicit extractor: every operation that can raise in Python and
is not wrapped in a local `try`/`except` (the guarded `max`/`min` calls) is
modelled in the `Except` monad; locally caught `ValueError`s stay `Option`s. -/
def extractE (filename : String) (m : RegexMatches) :
    Except String LeaseRecord := do
  let rent0 := resolveRent m.rentMatches
  let tc ← termCandidatesFullE m.termMatches m.renewalMatch
  let term_years ← resolveTermE tc
  let acres := resolveAcres m.acresMatches
  let annual_rent ← applyPerAcreOverrideE m.perAcreRates acres rent0
  pure
    { name := buildName filename
      annual_rent := annual_rent
      term_years := term_years
      escalator := resolveEscalator m.escalatorMatches
      risk_tier := "medium"
      location := resolveLocation m.combinedLocation m.locationMatches
      acres := acres
      developer := developerLoop m.developerMatches
      landowners := none
      needs_review := needsReview term_years }

/-- The match environment induced by the empty document text: none of the 15
rent, 4 escalator, 3 acreage, 8 location, or 6 company patterns matches, the
term and per-acre batteries produce no captures, and the renewal and combined
location searches fail. -/
def emptyMatches : RegexMatches :=
  { rentMatches := List.replicate 15 none
    termMatches := []
    renewalMatch := none
    escalatorMatches := List.replicate 4 none
    acresMatches := List.replicate 3 none
    perAcreRates := []
    combinedLocation := none
    locationMatches := List.replicate 8 none
    developerMatches := List.replicate 6 none }

/-- Python `float` overflow: `float` of a decimal string whose value reaches
the IEEE-754 double range bound parses to `inf` (it does not raise); `none`
models `inf`, `some q` a finite value.  The threshold is modelled as `2 ^ 1024`
(the exact round-to-nearest boundary is marginally below; the gap is
irrelevant to the inputs considered here). -/
def pyFloatIEEE (s : List Char) : Option (Option ℚ) :=
  match pyFloat s with
  | none => none
  | some v => if (2 : ℚ) ^ 1024 ≤ v then some none else some (some v)

/-- The `rates_float` comprehension under overflow-aware parsing. -/
def parseAllRatesIEEE : List String → Option (List (Option ℚ))
  | [] => some []
  | r :: rest =>
    match pyFloatIEEE (stripCommas r.data), parseAllRatesIEEE rest with
    | some q, some qs => some (q :: qs)
    | some _, none => none
    | none, _ => none

/-- `max` of two floats where `none` is `inf`. -/
def efMax (a b : Option ℚ) : Option ℚ :=
  match a, b with
  | none, _ => none
  | _, none => none
  | some x, some y => some (max x y)

/-- Python `max` over a float list where `none` is `inf` (`none` on `[]`,
unreachable behind the source's guard). -/
def maxListIEEE : List (Option ℚ) → Option ℚ
  | [] => none
  | a :: r => r.foldl efMax a

/-- The per-acre override as Python actually executes it on IEEE-754 floats,
for a finite nonzero acreage: when the maximal parsed rate is `inf`,
`int(rate * acres)` raises `OverflowError`, and the surrounding handler
catches only `ValueError`, so the exception escapes the function. -/
def applyPerAcreOverrideIEEE (rates : List String) (acres : Option ℚ)
    (rent : Option Nat) : Except String (Option Nat) :=
  match acres with
  | none => pure rent
  | some a =>
    if rates = [] ∨ a = 0 then pure rent
    else
      match parseAllRatesIEEE rates with
      | none => pure rent
      | some rf =>
        match maxListIEEE rf with
        | none =>
          Except.error "OverflowError: cannot convert float infinity to integer"
        | some rate =>
          match rent with
          | none => pure (some ((Rat.floor (rate * a)).toNat))
          | some v =>
            if (Rat.floor (rate * a)).toNat * 3 < v ∨
                (v : ℚ) < ((Rat.floor (rate * a)).toNat : ℚ) / 3 then
              pure (some ((Rat.floor (rate * a)).toNat))
            else pure (some v)

/-- A 400-digit per-acre rate capture (the digit string of `10 ^ 399`). -/
def overflowRate : String := String.mk ('1' :: List.replicate 399 '0')

/-- Matches induced by a text containing `"Annual Rental Payment: $50,000"`
and no term, escalator, acreage, location, or company language: the first rent
pattern captures `"50,000"`. -/
def envC2 : RegexMatches :=
  { rentMatches := some "50,000" :: List.replicate 14 none
    termMatches := []
    renewalMatch := none
    escalatorMatches := List.replicate 4 none
    acresMatches := List.replicate 3 none
    perAcreRates := []
    combinedLocation := none
    locationMatches := List.replicate 8 none
    developerMatches := List.replicate 6 none }

/-- Matches induced by a text containing `"for 25 years"` and nothing else the
patterns recognise: the first term pattern captures `"25"`. -/
def envC3 : RegexMatches :=
  { rentMatches := List.replicate 15 none
    termMatches := ["25"]
    renewalMatch := none
    escalatorMatches := List.replicate 4 none
    acresMatches := List.replicate 3 none
    perAcreRates := []
    combinedLocation := none
    locationMatches := List.replicate 8 none
    developerMatches := List.replicate 6 none }

/-- Matches induced by the text
`"lease for 10 years with 2 renewal terms of 10 years"`: term patterns 1
(`for N years`), 2 (`term ... N years`) and 8 (`N years ... term`) each
capture `"10"` once, and the renewal pattern captures `("2", "10")`. -/
def envC4 : RegexMatches :=
  { rentMatches := List.replicate 15 none
    termMatches := ["10", "10", "10"]
    renewalMatch := some ("2", "10")
    escalatorMatches := List.replicate 4 none
    acresMatches := List.replicate 3 none
    perAcreRates := []
    combinedLocation := none
    locationMatches := List.replicate 8 none
    developerMatches := List.replicate 6 none }

/-- Matches induced by the text `"0 renewal terms of 0 years"`: term pattern 2
(`term ... N years`) captures `"0"` (dropped as falsy), and the renewal
pattern captures `("0", "0")`, appending the candidate `0 + 0 * 0 = 0`. -/
def envC5 : RegexMatches :=
  { rentMatches := List.replicate 15 none
    termMatches := ["0"]
    renewalMatch := some ("0", "0")
    escalatorMatches := List.replicate 4 none
    acresMatches := List.replicate 3 none
    perAcreRates := []
    combinedLocation := none
    locationMatches := List.replicate 8 none
    developerMatches := List.replicate 6 none }

/-- Matches induced by the text `"$15 per acre for 640 acres"`: rent pattern
13 (`$N ... per acre`) captures `"15"` (rejected as below 1000), the per-acre
findall returns `["15"]`, and the first acreage pattern captures `"640"`. -/
def envC7 : RegexMatches :=
  { rentMatches := List.replicate 12 none ++ [some "15", none, none]
    termMatches := []
    renewalMatch := none
    escalatorMatches := List.replicate 4 none
    acresMatches := [some "640", none, none]
    perAcreRates := ["15"]
    combinedLocation := none
    locationMatches := List.replicate 8 none
    developerMatches := List.replicate 6 none }

/-- Matches induced by a text containing `"0 acres"` and `"$15 per acre"`
with no in-range rent figure: acreage resolves to `0.0`. -/
def envC10 : RegexMatches :=
  { rentMatches := List.replicate 12 none ++ [some "15", none, none]
    termMatches := []
    renewalMatch := none
    escalatorMatches := List.replicate 4 none
    acresMatches := [some "0", none, none]
    perAcreRates := ["15"]
    combinedLocation := none
    locationMatches := List.replicate 8 none
    developerMatches := List.replicate 6 none }

theorem maxListE_ok (l : List Nat) (h : l ≠ []) :
    maxListE l = Except.ok (maxList l) := by
  cases l with
  | nil => exact absurd rfl h
  | cons a r => rfl

theorem minListE_ok (l : List Nat) (h : l ≠ []) :
    minListE l = Except.ok (minList l) := by
  cases l with
  | nil => exact absurd rfl h
  | cons a r => rfl

theorem maxListQE_ok (l : List ℚ) (h : l ≠ []) :
    maxListQE l = Except.ok (maxListQ l) := by
  cases l with
  | nil => exact absurd rfl h
  | cons a r => rfl

theorem bindOk {α β : Type} (x : α) (f : α → Except String β) :
    (Except.ok x >>= f) = f x := rfl

theorem termCandidatesFullE_ok (ms : List String) (r : Option (String × String)) :
    termCandidatesFullE ms r = Except.ok (termCandidatesFull ms r) := by
  unfold termCandidatesFullE termCandidatesFull
  cases r with
  | none => rfl
  | some g =>
    obtain ⟨g1, g2⟩ := g
    cases h1 : pyInt g1.data with
    | none => simp only [h1]; rfl
    | some n =>
      cases h2 : pyInt g2.data with
      | none => simp only [h1, h2]; rfl
      | some k =>
        simp only [h1, h2]
        by_cases htc : termCandidates ms = []
        · rw [if_pos htc, if_pos htc]; rfl
        · rw [if_neg htc, if_neg htc, maxListE_ok _ htc, bindOk]; rfl

theorem resolveTermE_ok (tc : List Nat) :
    resolveTermE tc = Except.ok (resolveTerm tc) := by
  unfold resolveTermE resolveTerm
  by_cases h : tc = []
  · rw [if_pos h, if_pos h]; rfl
  · rw [if_neg h, if_neg h]
    by_cases h2 : tc.filter (fun t => decide (15 ≤ t ∧ t ≤ 35)) = []
    · have h2n : ¬ (tc.filter (fun t => decide (15 ≤ t ∧ t ≤ 35)) ≠ []) :=
        not_not_intro h2
      rw [if_neg h2n, if_neg h2n, minListE_ok _ h, bindOk]
      by_cases h3 : minList tc ≤ 50
      · rw [if_pos h3, if_pos h3]; rfl
      · rw [if_neg h3, if_neg h3]; rfl
    · rw [if_pos h2, if_pos h2, maxListE_ok _ h2, bindOk]; rfl

theorem parseAllRates_cons_ne_nil (r : String) (rs : List String) (rf : List ℚ)
    (h : parseAllRates (r :: rs) = some rf) : rf ≠ [] := by
  unfold parseAllRates at h
  cases hq : pyFloat (stripCommas r.data) with
  | none => rw [hq] at h; exact absurd h (by simp)
  | some q =>
    cases hqs : parseAllRates rs with
    | none => rw [hq, hqs] at h; exact absurd h (by simp)
    | some qs =>
      rw [hq, hqs] at h
      have hcons : q :: qs = rf := by simpa using h
      rw [← hcons]
      simp

theorem applyPerAcreOverrideE_ok (rates : List String) (acres : Option ℚ)
    (rent : Option Nat) :
    applyPerAcreOverrideE rates acres rent =
      Except.ok (applyPerAcreOverride rates acres rent) := by
  unfold applyPerAcreOverrideE applyPerAcreOverride
  cases acres with
  | none => rfl
  | some a =>
    dsimp only
    by_cases hg : rates = [] ∨ a = 0
    · rw [if_pos hg, if_pos hg]; rfl
    · rw [if_neg hg, if_neg hg]
      cases hp : parseAllRates rates with
      | none => simp only [hp]; rfl
      | some rf =>
        have hr : rates ≠ [] := fun hnil => hg (Or.inl hnil)
        have hrf : rf ≠ [] := by
          cases rates with
          | nil => exact absurd rfl hr
          | cons r rs => exact parseAllRates_cons_ne_nil r rs rf hp
        simp only [hp, maxListQE_ok rf hrf, bindOk]
        cases rent with
        | none => rfl
        | some v =>
          dsimp only
          by_cases hc : (Rat.floor (maxListQ rf * a)).toNat * 3 < v ∨
              (v : ℚ) < ((Rat.floor (maxListQ rf * a)).toNat : ℚ) / 3
          · rw [if_pos hc, if_pos hc]; rfl
          · rw [if_neg hc, if_neg hc]; rfl

theorem extractE_ok (filename : String) (m : RegexMatches) :
    extractE filename m = Except.ok (extract_lease_data_from_text filename m) := by
  unfold extractE extract_lease_data_from_text
  simp only [termCandidatesFullE_ok, resolveTermE_ok, applyPerAcreOverrideE_ok, bindOk]
  rfl

theorem le_foldl_max (r : List Nat) (a : Nat) : a ≤ r.foldl max a := by
  induction r generalizing a with
  | nil => exact Nat.le_refl a
  | cons b r ih => exact Nat.le_trans (Nat.le_max_left a b) (ih (max a b))

theorem mem_le_foldl_max (r : List Nat) : ∀ (a x : Nat), x ∈ r → x ≤ r.foldl max a := by
  induction r with
  | nil => intro a x hx; cases hx
  | cons b r ih =>
    intro a x hx
    cases hx with
    | head => exact Nat.le_trans (Nat.le_max_right a b) (le_foldl_max r (max a b))
    | tail _ h => exact ih (max a b) x h

theorem foldl_max_mem (r : List Nat) : ∀ a : Nat, r.foldl max a = a ∨ r.foldl max a ∈ r := by
  induction r with
  | nil => intro a; exact Or.inl rfl
  | cons b r ih =>
    intro a
    rcases ih (max a b) with h | h
    · rcases max_choice a b with hab | hab
      · left; rw [List.foldl_cons, h, hab]
      · right; rw [List.foldl_cons, h, hab]; exact List.mem_cons_self b r
    · right; exact List.mem_cons_of_mem b h

theorem maxList_mem (l : List Nat) (h : l ≠ []) : maxList l ∈ l := by
  cases l with
  | nil => exact absurd rfl h
  | cons a r =>
    show r.foldl max a ∈ a :: r
    rcases foldl_max_mem r a with h2 | h2
    · rw [h2]; exact List.mem_cons_self a r
    · exact List.mem_cons_of_mem a h2

theorem le_maxList (l : List Nat) (x : Nat) (hx : x ∈ l) : x ≤ maxList l := by
  cases l with
  | nil => cases hx
  | cons a r =>
    show x ≤ r.foldl max a
    cases hx with
    | head => exact le_foldl_max r _
    | tail _ h => exact mem_le_foldl_max r a x h

theorem foldl_min_le (r : List Nat) (a : Nat) : r.foldl min a ≤ a := by
  induction r generalizing a with
  | nil => exact Nat.le_refl a
  | cons b r ih => exact Nat.le_trans (ih (min a b)) (Nat.min_le_left a b)

theorem foldl_min_le_mem (r : List Nat) : ∀ (a x : Nat), x ∈ r → r.foldl min a ≤ x := by
  induction r with
  | nil => intro a x hx; cases hx
  | cons b r ih =>
    intro a x hx
    cases hx with
    | head => exact Nat.le_trans (foldl_min_le r (min a b)) (Nat.min_le_right a b)
    | tail _ h => exact ih (min a b) x h

theorem foldl_min_mem (r : List Nat) : ∀ a : Nat, r.foldl min a = a ∨ r.foldl min a ∈ r := by
  induction r with
  | nil => intro a; exact Or.inl rfl
  | cons b r ih =>
    intro a
    rcases ih (min a b) with h | h
    · rcases min_choice a b with hab | hab
      · left; rw [List.foldl_cons, h, hab]
      · right; rw [List.foldl_cons, h, hab]; exact List.mem_cons_self b r
    · right; exact List.mem_cons_of_mem b h

theorem minList_mem (l : List Nat) (h : l ≠ []) : minList l ∈ l := by
  cases l with
  | nil => exact absurd rfl h
  | cons a r =>
    show r.foldl min a ∈ a :: r
    rcases foldl_min_mem r a with h2 | h2
    · rw [h2]; exact List.mem_cons_self a r
    · exact List.mem_cons_of_mem a h2

theorem minList_le (l : List Nat) (x : Nat) (hx : x ∈ l) : minList l ≤ x := by
  cases l with
  | nil => cases hx
  | cons a r =>
    show r.foldl min a ≤ x
    cases hx with
    | head => exact foldl_min_le r _
    | tail _ h => exact foldl_min_le_mem r a x h

theorem resolveRent_range (l : List (Option String)) (v : Nat)
    (h : resolveRent l = some v) : 1000 ≤ v ∧ v ≤ 10000000 := by
  induction l with
  | nil => exact absurd h (by simp [resolveRent])
  | cons o rest ih =>
    cases o with
    | none => exact ih (by simpa [resolveRent] using h)
    | some cap =>
      rw [resolveRent] at h
      cases hp : pyInt (stripCommas cap.data) with
      | none => rw [hp] at h; exact ih h
      | some amt =>
        simp only [hp] at h
        by_cases hr : 1000 ≤ amt ∧ amt ≤ 10000000
        · rw [if_pos hr] at h
          cases h
          exact hr
        · rw [if_neg hr] at h; exact ih h

theorem escalator_spec (l : List (Option String)) :
    (∀ p, acceptedEscPct l = some p →
      (1 / 2 ≤ p ∧ p ≤ 5 ∧ resolveEscalator l = p / 100)) ∧
    (acceptedEscPct l = none → resolveEscalator l = 0) := by
  induction l with
  | nil =>
    constructor
    · intro p hp; exact absurd hp (by simp [acceptedEscPct])
    · intro _; rfl
  | cons o rest ih =>
    cases o with
    | none =>
      constructor
      · intro p hp
        rw [acceptedEscPct] at hp
        obtain ⟨h1, h2, h3⟩ := ih.1 p hp
        exact ⟨h1, h2, by rw [resolveEscalator]; exact h3⟩
      · intro hn
        rw [acceptedEscPct] at hn
        rw [resolveEscalator]
        exact ih.2 hn
    | some cap =>
      cases hq : pyFloat cap.data with
      | none =>
        constructor
        · intro p hp
          simp only [acceptedEscPct, hq] at hp
          obtain ⟨h1, h2, h3⟩ := ih.1 p hp
          refine ⟨h1, h2, ?_⟩
          simp only [resolveEscalator, hq]
          exact h3
        · intro hn
          simp only [acceptedEscPct, hq] at hn
          simp only [resolveEscalator, hq]
          exact ih.2 hn
      | some q =>
        by_cases hr : 1 / 2 ≤ q ∧ q ≤ 5
        · constructor
          · intro p hp
            simp only [acceptedEscPct, hq] at hp
            rw [if_pos hr] at hp
            cases hp
            refine ⟨hr.1, hr.2, ?_⟩
            simp only [resolveEscalator, hq]
            rw [if_pos hr]
          · intro hn
            simp only [acceptedEscPct, hq] at hn
            rw [if_pos hr] at hn
            exact absurd hn (by simp)
        · constructor
          · intro p hp
            simp only [acceptedEscPct, hq] at hp
            rw [if_neg hr] at hp
            obtain ⟨h1, h2, h3⟩ := ih.1 p hp
            refine ⟨h1, h2, ?_⟩
            simp only [resolveEscalator, hq]
            rw [if_neg hr]
            exact h3
          · intro hn
            simp only [acceptedEscPct, hq] at hn
            rw [if_neg hr] at hn
            simp only [resolveEscalator, hq]
            rw [if_neg hr]
            exact ih.2 hn

theorem resolveTerm_spec (tc : List Nat) (h : tc ≠ []) :
    ((∃ t ∈ tc, 15 ≤ t ∧ t ≤ 35) →
      ∃ v, resolveTerm tc = some v ∧ v ∈ tc ∧ 15 ≤ v ∧ v ≤ 35 ∧
        ∀ t ∈ tc, 15 ≤ t → t ≤ 35 → t ≤ v) ∧
    ((¬ ∃ t ∈ tc, 15 ≤ t ∧ t ≤ 35) →
      minList tc ∈ tc ∧ (∀ t ∈ tc, minList tc ≤ t) ∧
      (minList tc ≤ 50 → resolveTerm tc = some (minList tc)) ∧
      (50 < minList tc → resolveTerm tc = none)) := by
  constructor
  · rintro ⟨t, ht, h15, h35⟩
    have hmem : t ∈ tc.filter (fun t => decide (15 ≤ t ∧ t ≤ 35)) :=
      List.mem_filter.mpr ⟨ht, by simp [h15, h35]⟩
    have hne : tc.filter (fun t => decide (15 ≤ t ∧ t ≤ 35)) ≠ [] :=
      List.ne_nil_of_mem hmem
    have hmax := maxList_mem _ hne
    have hmax2 := List.mem_filter.mp hmax
    refine ⟨maxList (tc.filter (fun t => decide (15 ≤ t ∧ t ≤ 35))), ?_, hmax2.1,
      (of_decide_eq_true hmax2.2).1, (of_decide_eq_true hmax2.2).2, ?_⟩
    · unfold resolveTerm
      rw [if_neg h, if_pos hne]
    · intro t2 ht2 h15b h35b
      exact le_maxList _ t2 (List.mem_filter.mpr ⟨ht2, by simp [h15b, h35b]⟩)
  · intro hnone
    have hfil : tc.filter (fun t => decide (15 ≤ t ∧ t ≤ 35)) = [] := by
      by_contra hne
      obtain ⟨t, ht⟩ := List.exists_mem_of_ne_nil _ hne
      have hm := List.mem_filter.mp ht
      exact hnone ⟨t, hm.1, of_decide_eq_true hm.2⟩
    refine ⟨minList_mem tc h, fun t ht => minList_le tc t ht, ?_, ?_⟩
    · intro h50
      unfold resolveTerm
      rw [if_neg h, if_neg (not_not_intro hfil), if_pos h50]
    · intro h50
      unfold resolveTerm
      rw [if_neg h, if_neg (not_not_intro hfil), if_neg (not_le.mpr h50)]

set_option maxRecDepth 40000

/-- C1: the claim that `extract_lease_data_from_text` is total and never
raises is wrong on the code.  With the acreage resolved to `5.0` and a
400-digit per-acre rate capture, Python parses the rate to `inf`
(`float` of an overflowing decimal string returns `inf`) and
`computed_rent = int(rate * acres)` raises `OverflowError`; the surrounding
handler catches only `ValueError`, so the exception escapes the function.
This theorem evaluates the overflow-aware model of the per-acre override at
that failing input and shows the uncaught exception. -/
theorem overflow_not_total :
    applyPerAcreOverrideIEEE [overflowRate] (some 5) none =
      Except.error "OverflowError: cannot convert float infinity to integer" := by
  have hpf : pyFloat (stripCommas overflowRate.data) = some (((10 ^ 399 : Nat) : ℚ)) := by
    decide
  have hover : ((2 : ℚ) ^ 1024 ≤ ((10 ^ 399 : Nat) : ℚ)) := by
    push_cast
    norm_num
  have hieee : pyFloatIEEE (stripCommas overflowRate.data) = some none := by
    unfold pyFloatIEEE
    simp only [hpf]
    rw [if_pos hover]
  have hpr : parseAllRatesIEEE [overflowRate] = some [none] := by
    unfold parseAllRatesIEEE
    rw [hieee]
    rfl
  have hguard : ¬ (([overflowRate] : List String) = [] ∨ (5 : ℚ) = 0) := by
    push_neg
    exact ⟨by simp, by norm_num⟩
  unfold applyPerAcreOverrideIEEE
  dsimp only
  rw [if_neg hguard]
  simp only [hpr]
  rfl

/-- C2: any non-null `annual_rent` is either the value accepted by the ordered
rent-pattern loop, hence within `[1000, 10000000]`, or exactly the per-acre
override value, the integer truncation of the maximal per-acre rate times the
resolved acreage (floats modelled as exact rationals). -/
theorem rent_invariant (filename : String) (m : RegexMatches) (v : Nat)
    (h : (extract_lease_data_from_text filename m).annual_rent = some v) :
    (resolveRent m.rentMatches = some v ∧ 1000 ≤ v ∧ v ≤ 10000000) ∨
      perAcreComputed m.perAcreRates (resolveAcres m.acresMatches) = some v := by
  have h0 : applyPerAcreOverride m.perAcreRates (resolveAcres m.acresMatches)
      (resolveRent m.rentMatches) = some v := h
  unfold applyPerAcreOverride at h0
  unfold perAcreComputed
  cases hA : resolveAcres m.acresMatches with
  | none =>
    simp only [hA] at h0
    exact Or.inl ⟨h0, resolveRent_range _ _ h0⟩
  | some a =>
    simp only [hA] at h0 ⊢
    by_cases hg : m.perAcreRates = [] ∨ a = 0
    · rw [if_pos hg] at h0
      exact Or.inl ⟨h0, resolveRent_range _ _ h0⟩
    · rw [if_neg hg] at h0
      rw [if_neg hg]
      cases hp : parseAllRates m.perAcreRates with
      | none =>
        simp only [hp] at h0
        exact Or.inl ⟨h0, resolveRent_range _ _ h0⟩
      | some rf =>
        simp only [hp] at h0 ⊢
        cases hR : resolveRent m.rentMatches with
        | none =>
          simp only [hR] at h0
          exact Or.inr h0
        | some v0 =>
          simp only [hR] at h0
          by_cases hc : (Rat.floor (maxListQ rf * a)).toNat * 3 < v0 ∨
              (v0 : ℚ) < ((Rat.floor (maxListQ rf * a)).toNat : ℚ) / 3
          · rw [if_pos hc] at h0
            exact Or.inr h0
          · rw [if_neg hc] at h0
            injection h0 with hv
            subst hv
            exact Or.inl ⟨rfl, resolveRent_range _ _ hR⟩

/-- Witness for C2 at a text whose first rent pattern captures `"50,000"`:
the accepted rent is 50000, in range. -/
theorem rent_invariant_witness :
    (extract_lease_data_from_text "doc" envC2).annual_rent = some 50000 ∧
    ((resolveRent envC2.rentMatches = some 50000 ∧ 1000 ≤ 50000 ∧
        50000 ≤ 10000000) ∨
      perAcreComputed envC2.perAcreRates (resolveAcres envC2.acresMatches) =
        some 50000) :=
  ⟨by decide, rent_invariant "doc" envC2 50000 (by decide)⟩

/-- C3: when the term-candidate list is non-empty, the resolved `term_years`
is the maximum candidate in `[15, 35]` when one exists; otherwise it is the
minimum of all raw candidates when that minimum is at most 50, and null when
it exceeds 50. -/
theorem term_resolution (filename : String) (m : RegexMatches)
    (h : termCandidatesFull m.termMatches m.renewalMatch ≠ []) :
    ((∃ t ∈ termCandidatesFull m.termMatches m.renewalMatch, 15 ≤ t ∧ t ≤ 35) →
      ∃ v, (extract_lease_data_from_text filename m).term_years = some v ∧
        v ∈ termCandidatesFull m.termMatches m.renewalMatch ∧ 15 ≤ v ∧ v ≤ 35 ∧
        ∀ t ∈ termCandidatesFull m.termMatches m.renewalMatch,
          15 ≤ t → t ≤ 35 → t ≤ v) ∧
    ((¬ ∃ t ∈ termCandidatesFull m.termMatches m.renewalMatch, 15 ≤ t ∧ t ≤ 35) →
      minList (termCandidatesFull m.termMatches m.renewalMatch) ∈
          termCandidatesFull m.termMatches m.renewalMatch ∧
      (∀ t ∈ termCandidatesFull m.termMatches m.renewalMatch,
          minList (termCandidatesFull m.termMatches m.renewalMatch) ≤ t) ∧
      (minList (termCandidatesFull m.termMatches m.renewalMatch) ≤ 50 →
        (extract_lease_data_from_text filename m).term_years =
          some (minList (termCandidatesFull m.termMatches m.renewalMatch))) ∧
      (50 < minList (termCandidatesFull m.termMatches m.renewalMatch) →
        (extract_lease_data_from_text filename m).term_years = none)) :=
  resolveTerm_spec (termCandidatesFull m.termMatches m.renewalMatch) h

/-- Witness for C3 at a text whose term battery captures `"25"`. -/
theorem term_resolution_witness :
    termCandidatesFull envC3.termMatches envC3.renewalMatch ≠ [] ∧
    (((∃ t ∈ termCandidatesFull envC3.termMatches envC3.renewalMatch,
        15 ≤ t ∧ t ≤ 35) →
      ∃ v, (extract_lease_data_from_text "doc" envC3).term_years = some v ∧
        v ∈ termCandidatesFull envC3.termMatches envC3.renewalMatch ∧
        15 ≤ v ∧ v ≤ 35 ∧
        ∀ t ∈ termCandidatesFull envC3.termMatches envC3.renewalMatch,
          15 ≤ t → t ≤ 35 → t ≤ v) ∧
    ((¬ ∃ t ∈ termCandidatesFull envC3.termMatches envC3.renewalMatch,
        15 ≤ t ∧ t ≤ 35) →
      minList (termCandidatesFull envC3.termMatches envC3.renewalMatch) ∈
          termCandidatesFull envC3.termMatches envC3.renewalMatch ∧
      (∀ t ∈ termCandidatesFull envC3.termMatches envC3.renewalMatch,
          minList (termCandidatesFull envC3.termMatches envC3.renewalMatch) ≤ t) ∧
      (minList (termCandidatesFull envC3.termMatches envC3.renewalMatch) ≤ 50 →
        (extract_lease_data_from_text "doc" envC3).term_years =
          some (minList (termCandidatesFull envC3.termMatches envC3.renewalMatch))) ∧
      (50 < minList (termCandidatesFull envC3.termMatches envC3.renewalMatch) →
        (extract_lease_data_from_text "doc" envC3).term_years = none))) :=
  ⟨by decide, term_resolution "doc" envC3 (by decide)⟩

/-- C4: whenever the renewal-clause pattern matched, with captures parsing to
`n` and `k`, the candidate `initial + n * k` is appended to the term-candidate
list, where `initial` is the maximum of the candidates collected so far, or
`k` itself when no other candidate exists; in particular, for the matches of
`"lease for 10 years with 2 renewal terms of 10 years"` the term resolves to
`10 + 2 * 10 = 30`. -/
theorem renewal_term_append :
    (∀ (m : RegexMatches) (s1 s2 : String) (n k : Nat),
        m.renewalMatch = some (s1, s2) →
        pyInt s1.data = some n → pyInt s2.data = some k →
        termCandidatesFull m.termMatches m.renewalMatch =
          termCandidates m.termMatches ++
            [(if termCandidates m.termMatches = [] then k
              else maxList (termCandidates m.termMatches)) + n * k]) ∧
    (extract_lease_data_from_text "doc" envC4).term_years = some 30 := by
  constructor
  · intro m s1 s2 n k hr h1 h2
    unfold termCandidatesFull
    simp only [hr, h1, h2]
  · decide

/-- Witness for C4: the general append rule applied to the concrete renewal
match `("2", "10")` with collected candidates `[10, 10, 10]`. -/
theorem renewal_term_append_witness :
    termCandidatesFull envC4.termMatches envC4.renewalMatch =
      termCandidates envC4.termMatches ++
        [(if termCandidates envC4.termMatches = [] then 10
          else maxList (termCandidates envC4.termMatches)) + 2 * 10] :=
  renewal_term_append.1 envC4 "2" "10" 2 10 rfl (by decide) (by decide)

/-- C5 counterexample: on the matches of the text
`"0 renewal terms of 0 years"` the resolved `term_years` is `some 0`, which is
non-null and below 10, yet `needs_review` is `false`: Python evaluates
`if lease_data.get("term_years") and ...` and `0` is falsy, so the claimed
equivalence fails at this input. -/
theorem needs_review_truthiness_cex :
    ¬ (((extract_lease_data_from_text "doc" envC5).needs_review = true) ↔
        ∃ v, (extract_lease_data_from_text "doc" envC5).term_years = some v ∧
          v < 10) := by
  intro hiff
  have htrue := hiff.mpr ⟨0, by decide, by decide⟩
  exact absurd htrue (by decide)

/-- C5 (amended): `needs_review` is `true` exactly when `term_years` is
non-null, nonzero, and below 10 (the Python truthiness test also sends a zero
term to the `false` branch). -/
theorem needs_review_iff (filename : String) (m : RegexMatches) :
    (extract_lease_data_from_text filename m).needs_review = true ↔
      ∃ v, (extract_lease_data_from_text filename m).term_years = some v ∧
        v ≠ 0 ∧ v < 10 := by
  show needsReview (resolveTerm (termCandidatesFull m.termMatches m.renewalMatch)) = true ↔
    ∃ v, resolveTerm (termCandidatesFull m.termMatches m.renewalMatch) = some v ∧
      v ≠ 0 ∧ v < 10
  cases h : resolveTerm (termCandidatesFull m.termMatches m.renewalMatch) with
  | none => simp [needsReview]
  | some v => simp [needsReview]

/-- C6: a non-default escalator always comes from the first escalator pattern
whose capture parses to a percentage within `[0.5, 5.0]`, converted by
division by 100; when no pattern yields an in-range value the escalator stays
exactly 0 (percentages modelled as exact rationals). -/
theorem escalator_invariant (filename : String) (m : RegexMatches) :
    ((extract_lease_data_from_text filename m).escalator ≠ 0 →
      ∃ p, acceptedEscPct m.escalatorMatches = some p ∧ 1 / 2 ≤ p ∧ p ≤ 5 ∧
        (extract_lease_data_from_text filename m).escalator = p / 100) ∧
    (acceptedEscPct m.escalatorMatches = none →
      (extract_lease_data_from_text filename m).escalator = 0) := by
  have hs := escalator_spec m.escalatorMatches
  constructor
  · intro hne
    cases hacc : acceptedEscPct m.escalatorMatches with
    | none => exact absurd (hs.2 hacc) hne
    | some p =>
      obtain ⟨h1, h2, h3⟩ := hs.1 p hacc
      exact ⟨p, rfl, h1, h2, h3⟩
  · exact hs.2

/-- C7: with the rent loop accepting nothing, the per-acre findall returning
exactly `["15"]`, and the acreage resolving to `640.0` (the matches induced by
a text containing `"$15 per acre"` and `"640 acres"` and no other rent
language), the returned `annual_rent` is `15 × 640 = 9600`. -/
theorem per_acre_scenario (filename : String) (m : RegexMatches)
    (h1 : resolveRent m.rentMatches = none)
    (h2 : m.perAcreRates = ["15"])
    (h3 : resolveAcres m.acresMatches = some 640) :
    (extract_lease_data_from_text filename m).annual_rent = some 9600 := by
  show applyPerAcreOverride m.perAcreRates (resolveAcres m.acresMatches)
      (resolveRent m.rentMatches) = some 9600
  rw [h1, h2, h3]
  have hguard : ¬ ((["15"] : List String) = [] ∨ (640 : ℚ) = 0) := by
    push_neg
    exact ⟨by simp, by norm_num⟩
  have hp : parseAllRates ["15"] = some [((15 : Nat) : ℚ)] := by decide
  unfold applyPerAcreOverride
  dsimp only
  rw [if_neg hguard]
  simp only [hp]
  have hmax : maxListQ [((15 : Nat) : ℚ)] = ((15 : Nat) : ℚ) := rfl
  rw [hmax]
  have hprod : ((15 : Nat) : ℚ) * 640 = (9600 : ℚ) := by norm_num
  rw [hprod]
  have hfl : (Rat.floor (9600 : ℚ)).toNat = 9600 := by decide
  rw [hfl]

/-- Witness for C7 at the matches of `"$15 per acre for 640 acres"` (the rent
pattern capture `"15"` parses to 15, below the 1000 floor, so the loop accepts
nothing). -/
theorem per_acre_scenario_witness :
    resolveRent envC7.rentMatches = none ∧ envC7.perAcreRates = ["15"] ∧
    resolveAcres envC7.acresMatches = some 640 ∧
    (extract_lease_data_from_text "doc" envC7).annual_rent = some 9600 :=
  ⟨by decide, rfl, by decide,
    per_acre_scenario "doc" envC7 (by decide) rfl (by decide)⟩

/-- C8: on the empty document text (no pattern matches anything) the extractor
returns normally — the exception-explicit run succeeds — with every optional
field null, escalator `0.0`, risk tier `"medium"`, and `needs_review`
`false`. -/
theorem empty_text_extraction (filename : String) :
    (extract_lease_data_from_text filename emptyMatches).annual_rent = none ∧
    (extract_lease_data_from_text filename emptyMatches).term_years = none ∧
    (extract_lease_data_from_text filename emptyMatches).location = none ∧
    (extract_lease_data_from_text filename emptyMatches).acres = none ∧
    (extract_lease_data_from_text filename emptyMatches).developer = none ∧
    (extract_lease_data_from_text filename emptyMatches).landowners = none ∧
    (extract_lease_data_from_text filename emptyMatches).escalator = 0 ∧
    (extract_lease_data_from_text filename emptyMatches).risk_tier = "medium" ∧
    (extract_lease_data_from_text filename emptyMatches).needs_review = false ∧
    extractE filename emptyMatches =
      Except.ok (extract_lease_data_from_text filename emptyMatches) :=
  ⟨rfl, rfl, rfl, rfl, rfl, rfl, rfl, rfl, rfl, rfl⟩

/-- C9 counterexample: at the document name ".pdf.pdf" the source removes
every ".pdf" occurrence and returns the empty name, while the claim's reading
(a trailing extension suffix stripped, then underscores to spaces, then
title-case) yields ".Pdf".  One input thus refutes both conjuncts of the
claim: the returned name is empty, and it differs from the suffix-stripped
transform. -/
theorem name_claim_cex :
    (extract_lease_data_from_text ".pdf.pdf" emptyMatches).name = "" ∧
    (extract_lease_data_from_text ".pdf.pdf" emptyMatches).name ≠
      nameSpecTransform ".pdf.pdf" :=
  ⟨rfl, by decide⟩

/-- C9 (amended): the returned `name` equals the document name with every
occurrence of `".pdf"` and then `".docx"` removed (not only a trailing
extension), underscores replaced by spaces, and title-cased; the result can be
empty (for instance for the empty document name). -/
theorem name_transform (filename : String) (m : RegexMatches) :
    (extract_lease_data_from_text filename m).name =
      pyTitle (String.mk (replaceAll "_".data " ".data
        (replaceAll ".docx".data [] (replaceAll ".pdf".data [] filename.data)))) :=
  rfl

/-- C10: when the acreage resolver accepts `0.0`, the per-acre override is
skipped (Python's truthiness guard treats `0.0` as absent), so `annual_rent`
is exactly what the ordered rent patterns resolved, even when per-acre rate
matches exist. -/
theorem zero_acres_no_override (filename : String) (m : RegexMatches)
    (h : resolveAcres m.acresMatches = some 0) :
    (extract_lease_data_from_text filename m).annual_rent =
      resolveRent m.rentMatches := by
  show applyPerAcreOverride m.perAcreRates (resolveAcres m.acresMatches)
      (resolveRent m.rentMatches) = resolveRent m.rentMatches
  rw [h]
  unfold applyPerAcreOverride
  dsimp only
  rw [if_pos (Or.inr rfl)]

/-- Witness for C10 at matches with acreage capture `"0"` and a per-acre rate
`"15"`: the override does not fire. -/
theorem zero_acres_no_override_witness :
    resolveAcres envC10.acresMatches = some 0 ∧
    (extract_lease_data_from_text "doc" envC10).annual_rent =
      resolveRent envC10.rentMatches :=
  ⟨by decide, zero_acres_no_override "doc" envC10 (by decide)⟩
